import Mathlib

/-!
Shallow embedding of the T3P0 tic-tac-toe protocol core: the 32-bit
message codec (src/request.rs) and the game-state transition rules
(src/game_state.rs).  A `Request` value is modelled as a `Nat` holding the
u32 word; all bit manipulation is carried out with explicit `Nat` bitwise
operations mirroring the Rust source.
-/

deriving instance DecidableEq for Except

namespace T3P0

/-! Bit offsets, from `enum Bits` in src/request.rs. -/

def Bits.MessageNumber : Nat := 21

def Bits.P2Turn : Nat := 26

def Bits.TurnOffset : Nat := 27

def Bits.MessageType : Nat := 31

/-! Field widths, from `enum Ranges` in src/request.rs. -/

def Ranges.Board : Nat := 9

def Ranges.MessageNumber : Nat := 5

def Ranges.Turn : Nat := 4

/-- `Request::new_data_request`: the ack word (only the message-type bit
set) or the all-zero word. -/
def new_data_request (is_ok : Bool) : Nat :=
  if is_ok then 1 <<< Bits.MessageType else 0

/-- `Request::get_turn`: bits [27..31). -/
def get_turn (r : Nat) : Nat :=
  (r >>> Bits.TurnOffset) &&& ((1 <<< Ranges.Turn) - 1)

/-- `Request::get_board_state`: bits [0..9). -/
def get_board_state (r : Nat) : Nat :=
  r &&& ((1 <<< Ranges.Board) - 1)

/-- `Request::get_is_p2_turn`: bit 26. -/
def get_is_p2_turn (r : Nat) : Bool :=
  (r >>> Bits.P2Turn) &&& 1 == 1

/-- `Request::get_message_number`: bits [21..26). -/
def get_message_number (r : Nat) : Nat :=
  (r >>> Bits.MessageNumber) &&& ((1 <<< Ranges.MessageNumber) - 1)

/-- `Request::swap_player`: flip each of the nine board bits in a loop,
then flip the p2-turn bit. -/
def swap_player (r : Nat) : Nat :=
  ((List.range Ranges.Board).foldl (fun output i => output ^^^ (1 <<< i)) r)
    ^^^ (1 <<< Bits.P2Turn)

/-- Error string shared by `increment_turn_and_message` and the first
check of `validate_request` in src/request.rs. -/
def overflowMsg : String :=
  "Trying to increment message number past maximum value."

def turnMaxMsg : String :=
  "Trying to increment turn number past maximum value."

def messageLessMsg : String :=
  "Message number is less than turn number."

def outOfSyncMsg : String :=
  "Turn number and message number are not in sync."

def p2OnP1Msg : String :=
  "Player 2 is trying to make a move on player 1's turn."

def p1OnP2Msg : String :=
  "Player 1 is trying to make a move on player 2's turn."

/-- `Request::increment_turn_and_message` from src/request.rs. -/
def increment_turn_and_message (r : Nat) : Except String Nat :=
  let turn := get_turn r
  let message_number := get_message_number r
  if message_number + 1 ≥ 27 then
    Except.error overflowMsg
  else
    let output := r ^^^ (turn <<< Bits.TurnOffset)
    let output := output ||| (((turn + 1) % 9) <<< Bits.TurnOffset)
    let output := output ^^^ (message_number <<< Bits.MessageNumber)
    let output := output ||| ((message_number + 1) <<< Bits.MessageNumber)
    let output := output ^^^ (1 <<< Bits.P2Turn)
    Except.ok output

/-- `Request::validate_request` from src/request.rs. -/
def validate_request (r : Nat) : Except String Unit :=
  if get_message_number r ≥ 27 then Except.error overflowMsg
  else if get_turn r ≥ 9 then Except.error turnMaxMsg
  else if get_message_number r < get_turn r then Except.error messageLessMsg
  else if get_message_number r % 9 ≠ get_turn r then Except.error outOfSyncMsg
  else if get_message_number r % 2 = 0 ∧ get_is_p2_turn r then Except.error p2OnP1Msg
  else if get_message_number r % 2 = 1 ∧ ¬ get_is_p2_turn r then Except.error p1OnP2Msg
  else Except.ok ()

/-- `Request::is_ok_response`: `self.0 & u32::MAX == 1 << MessageType`. -/
def is_ok_response (r : Nat) : Bool :=
  (r &&& (2 ^ 32 - 1)) == 1 <<< Bits.MessageType

/-- A player identity (src/player.rs): an opaque 16-byte UUID, modelled
as its numeric value. -/
structure Player where
  id : Nat
deriving DecidableEq

/-- `Player::get_id`. -/
def Player.get_id (p : Player) : Nat := p.id

/-- `Player::new` draws a fresh random UUID; identity generation is an
external collaborator, so the drawn value is modelled as an unspecified
fixed identifier.  None of the verified claims depends on its value. -/
def Player.new : Player := ⟨0⟩

/-- `GameState` from src/game_state.rs. -/
structure GameState where
  players : Option (Player × Player)
  submitted_by : Player
  board : Fin 9 → Nat
  turn : Nat
  message_number : Nat
  p2_turn : Bool
  request : Nat

/-- `GameState::new` from src/game_state.rs. -/
def GameState.new (player : Option Player) (players : Option (Player × Player)) :
    GameState :=
  { players := players
    submitted_by := match player with
      | some p => p
      | none => Player.new
    turn := 0
    p2_turn := true
    message_number := 0
    board := fun _ => 0
    request := new_data_request false }

/-- `GameState::from_request` from src/game_state.rs. -/
def GameState.from_request (request : Nat) (player : Player) :
    Except String GameState :=
  match validate_request request with
  | Except.error e => Except.error e
  | Except.ok _ =>
    Except.ok
      { players := none
        submitted_by := player
        board := fun i => (get_board_state request >>> i.val) &&& 1
        turn := get_turn request
        message_number := get_message_number request
        p2_turn := get_is_p2_turn request
        request := request }

/-- The cell-by-cell loop of `GameState::compare_boards`: walk the cells
in order, bail out on a rewrite of an occupied cell, count differences. -/
def compareAux (a b : Fin 9 → Nat) : List (Fin 9) → Nat → Bool
  | [], differences => differences == 1
  | i :: rest, differences =>
    if a i ≠ 0 ∧ a i ≠ b i then false
    else if a i ≠ b i then compareAux a b rest (differences + 1)
    else compareAux a b rest differences

/-- `GameState::compare_boards` from src/game_state.rs. -/
def GameState.compare_boards (s other : GameState) : Bool :=
  compareAux s.board other.board (List.finRange 9) 0

/-- `GameState::validate_turn` from src/game_state.rs. -/
def GameState.validate_turn (s game_state : GameState) : Except String Bool :=
  if s.turn + 1 ≠ game_state.turn then Except.ok false
  else if s.p2_turn == game_state.p2_turn then Except.ok false
  else if s.message_number + 1 ≠ game_state.message_number then Except.ok false
  else if s.submitted_by.get_id = game_state.submitted_by.get_id then Except.ok false
  else if (match s.players with
           | some ps =>
             decide (¬ (game_state.submitted_by = ps.1 ∨ game_state.submitted_by = ps.2))
           | none => false) then Except.ok false
  else if ¬ s.compare_boards game_state then Except.ok false
  else Except.ok true

/-- `GameState::to_request`. -/
def GameState.to_request (s : GameState) : Nat := s.request

/-- Iterated `increment_turn_and_message`, used to express the spec's
"step applied k times" properties. -/
def stepN : Nat → Nat → Except String Nat
  | 0, r => Except.ok r
  | n + 1, r =>
    match increment_turn_and_message r with
    | Except.ok r2 => stepN n r2
    | Except.error e => Except.error e

/-! ### Bit-level helper lemmas -/

theorem shiftRight_or_distrib (a b i : Nat) : (a ||| b) >>> i = a >>> i ||| b >>> i := by
  apply Nat.eq_of_testBit_eq
  intro j
  simp

theorem shiftRight_xor_distrib (a b i : Nat) : (a ^^^ b) >>> i = a >>> i ^^^ b >>> i := by
  apply Nat.eq_of_testBit_eq
  intro j
  simp

theorem and_mask (x w : Nat) : x &&& ((1 <<< w) - 1) = x % 2 ^ w := by
  rw [Nat.one_shiftLeft, Nat.and_pow_two_sub_one_eq_mod]

theorem beq_decide (a b : Nat) : (a == b) = decide (a = b) := by
  cases h : a == b
  · exact (decide_eq_false (by simpa using h)).symm
  · exact (decide_eq_true (by simpa using h)).symm

/-! ### Arithmetic characterisation of the four field extractors -/

theorem get_turn_eq (r : Nat) : get_turn r = r / 2 ^ 27 % 2 ^ 4 := by
  show (r >>> 27) &&& ((1 <<< 4) - 1) = _
  rw [and_mask, Nat.shiftRight_eq_div_pow]

theorem get_message_number_eq (r : Nat) : get_message_number r = r / 2 ^ 21 % 2 ^ 5 := by
  show (r >>> 21) &&& ((1 <<< 5) - 1) = _
  rw [and_mask, Nat.shiftRight_eq_div_pow]

theorem get_board_state_eq (r : Nat) : get_board_state r = r % 2 ^ 9 := by
  show r &&& ((1 <<< 9) - 1) = _
  rw [and_mask]

theorem get_is_p2_turn_eq (r : Nat) : get_is_p2_turn r = decide (r / 2 ^ 26 % 2 = 1) := by
  show ((r >>> 26) &&& 1 == 1) = _
  rw [Nat.and_one_is_mod, Nat.shiftRight_eq_div_pow, beq_decide]

theorem get_turn_lt (r : Nat) : get_turn r < 16 := by
  rw [get_turn_eq]; omega

theorem get_message_number_lt (r : Nat) : get_message_number r < 32 := by
  rw [get_message_number_eq]; omega

/-! ### The successful branch of `increment_turn_and_message` -/

/-- The word built by the successive xor/or updates inside
`increment_turn_and_message` (the `output` local of the Rust source). -/
def stepOutputVal (r : Nat) : Nat :=
  ((((r ^^^ (get_turn r <<< Bits.TurnOffset))
        ||| (((get_turn r + 1) % 9) <<< Bits.TurnOffset))
      ^^^ (get_message_number r <<< Bits.MessageNumber))
    ||| ((get_message_number r + 1) <<< Bits.MessageNumber))
  ^^^ (1 <<< Bits.P2Turn)

theorem increment_eq_ok (r : Nat) (h : get_message_number r + 1 < 27) :
    increment_turn_and_message r = Except.ok (stepOutputVal r) := by
  unfold increment_turn_and_message
  rw [if_neg (by omega)]
  rfl

theorem increment_eq_error (r : Nat) (h : 27 ≤ get_message_number r + 1) :
    increment_turn_and_message r = Except.error overflowMsg := by
  unfold increment_turn_and_message
  rw [if_pos (by omega)]

theorem stepOutputVal_message_number (r : Nat) (h : get_message_number r + 1 < 27) :
    get_message_number (stepOutputVal r) = get_message_number r + 1 := by
  have hmn := get_message_number_lt r
  have ht := get_turn_lt r
  rw [get_message_number_eq (stepOutputVal r)]
  rw [← Nat.shiftRight_eq_div_pow, ← Nat.and_pow_two_sub_one_eq_mod]
  simp only [stepOutputVal, shiftRight_xor_distrib, shiftRight_or_distrib,
    Nat.and_xor_distrib_right, Nat.and_distrib_right]
  simp only [Bits.TurnOffset, Bits.MessageNumber, Bits.P2Turn, Nat.shiftLeft_eq,
    Nat.shiftRight_eq_div_pow, Nat.and_pow_two_sub_one_eq_mod]
  rw [← get_message_number_eq r]
  set mn := get_message_number r
  set t := get_turn r
  rw [show t * 2 ^ 27 / 2 ^ 21 % 2 ^ 5 = 0 from by omega]
  rw [show (t + 1) % 9 * 2 ^ 27 / 2 ^ 21 % 2 ^ 5 = 0 from by omega]
  rw [show mn * 2 ^ 21 / 2 ^ 21 % 2 ^ 5 = mn from by omega]
  rw [show (mn + 1) * 2 ^ 21 / 2 ^ 21 % 2 ^ 5 = mn + 1 from by omega]
  rw [show 1 * 2 ^ 26 / 2 ^ 21 % 2 ^ 5 = 0 from by norm_num]
  simp

theorem stepOutputVal_turn (r : Nat) :
    get_turn (stepOutputVal r) = (get_turn r + 1) % 9 := by
  have hmn := get_message_number_lt r
  have ht := get_turn_lt r
  rw [get_turn_eq (stepOutputVal r)]
  rw [← Nat.shiftRight_eq_div_pow, ← Nat.and_pow_two_sub_one_eq_mod]
  simp only [stepOutputVal, shiftRight_xor_distrib, shiftRight_or_distrib,
    Nat.and_xor_distrib_right, Nat.and_distrib_right]
  simp only [Bits.TurnOffset, Bits.MessageNumber, Bits.P2Turn, Nat.shiftLeft_eq,
    Nat.shiftRight_eq_div_pow, Nat.and_pow_two_sub_one_eq_mod]
  rw [← get_turn_eq r]
  set mn := get_message_number r
  set t := get_turn r
  rw [show t * 2 ^ 27 / 2 ^ 27 % 2 ^ 4 = t from by omega]
  rw [show (t + 1) % 9 * 2 ^ 27 / 2 ^ 27 % 2 ^ 4 = (t + 1) % 9 from by omega]
  rw [show mn * 2 ^ 21 / 2 ^ 27 % 2 ^ 4 = 0 from by omega]
  rw [show (mn + 1) * 2 ^ 21 / 2 ^ 27 % 2 ^ 4 = 0 from by omega]
  rw [show 1 * 2 ^ 26 / 2 ^ 27 % 2 ^ 4 = 0 from by norm_num]
  simp

theorem stepOutputVal_p2 (r : Nat) (h : get_message_number r + 1 < 27) :
    get_is_p2_turn (stepOutputVal r) = ! get_is_p2_turn r := by
  have hmn := get_message_number_lt r
  have ht := get_turn_lt r
  rw [get_is_p2_turn_eq (stepOutputVal r), get_is_p2_turn_eq r]
  rw [← Nat.shiftRight_eq_div_pow, ← Nat.and_one_is_mod]
  simp only [stepOutputVal, shiftRight_xor_distrib, shiftRight_or_distrib,
    Nat.and_xor_distrib_right, Nat.and_distrib_right]
  simp only [Bits.TurnOffset, Bits.MessageNumber, Bits.P2Turn, Nat.shiftLeft_eq,
    Nat.shiftRight_eq_div_pow, Nat.and_one_is_mod]
  set mn := get_message_number r
  set t := get_turn r
  rw [show t * 2 ^ 27 / 2 ^ 26 % 2 = 0 from by omega]
  rw [show (t + 1) % 9 * 2 ^ 27 / 2 ^ 26 % 2 = 0 from by omega]
  rw [show mn * 2 ^ 21 / 2 ^ 26 % 2 = 0 from by omega]
  rw [show (mn + 1) * 2 ^ 21 / 2 ^ 26 % 2 = 0 from by omega]
  rw [show 1 * 2 ^ 26 / 2 ^ 26 % 2 = 1 from by norm_num]
  have hp : r / 2 ^ 26 % 2 = 0 ∨ r / 2 ^ 26 % 2 = 1 := by omega
  rcases hp with hp | hp <;> rw [hp] <;> simp

theorem stepOutputVal_board (r : Nat) :
    stepOutputVal r % 2 ^ 9 = r % 2 ^ 9 := by
  have hmn := get_message_number_lt r
  have ht := get_turn_lt r
  rw [← Nat.and_pow_two_sub_one_eq_mod (stepOutputVal r)]
  simp only [stepOutputVal, Nat.and_xor_distrib_right, Nat.and_distrib_right]
  simp only [Bits.TurnOffset, Bits.MessageNumber, Bits.P2Turn, Nat.shiftLeft_eq,
    Nat.and_pow_two_sub_one_eq_mod]
  set mn := get_message_number r
  set t := get_turn r
  rw [show t * 2 ^ 27 % 2 ^ 9 = 0 from by omega]
  rw [show (t + 1) % 9 * 2 ^ 27 % 2 ^ 9 = 0 from by omega]
  rw [show mn * 2 ^ 21 % 2 ^ 9 = 0 from by omega]
  rw [show (mn + 1) * 2 ^ 21 % 2 ^ 9 = 0 from by omega]
  rw [show 1 * 2 ^ 26 % 2 ^ 9 = 0 from by norm_num]
  simp

theorem stepOutputVal_reserved (r : Nat) :
    stepOutputVal r / 2 ^ 9 % 2 ^ 12 = r / 2 ^ 9 % 2 ^ 12 := by
  have hmn := get_message_number_lt r
  have ht := get_turn_lt r
  rw [← Nat.shiftRight_eq_div_pow (stepOutputVal r), ← Nat.and_pow_two_sub_one_eq_mod]
  simp only [stepOutputVal, shiftRight_xor_distrib, shiftRight_or_distrib,
    Nat.and_xor_distrib_right, Nat.and_distrib_right]
  simp only [Bits.TurnOffset, Bits.MessageNumber, Bits.P2Turn, Nat.shiftLeft_eq,
    Nat.shiftRight_eq_div_pow, Nat.and_pow_two_sub_one_eq_mod]
  set mn := get_message_number r
  set t := get_turn r
  rw [show t * 2 ^ 27 / 2 ^ 9 % 2 ^ 12 = 0 from by omega]
  rw [show (t + 1) % 9 * 2 ^ 27 / 2 ^ 9 % 2 ^ 12 = 0 from by omega]
  rw [show mn * 2 ^ 21 / 2 ^ 9 % 2 ^ 12 = 0 from by omega]
  rw [show (mn + 1) * 2 ^ 21 / 2 ^ 9 % 2 ^ 12 = 0 from by omega]
  rw [show 1 * 2 ^ 26 / 2 ^ 9 % 2 ^ 12 = 0 from by norm_num]
  simp

theorem stepOutputVal_message_type (r : Nat) :
    stepOutputVal r / 2 ^ 31 % 2 = r / 2 ^ 31 % 2 := by
  have hmn := get_message_number_lt r
  have ht := get_turn_lt r
  rw [← Nat.shiftRight_eq_div_pow (stepOutputVal r), ← Nat.and_one_is_mod]
  simp only [stepOutputVal, shiftRight_xor_distrib, shiftRight_or_distrib,
    Nat.and_xor_distrib_right, Nat.and_distrib_right]
  simp only [Bits.TurnOffset, Bits.MessageNumber, Bits.P2Turn, Nat.shiftLeft_eq,
    Nat.shiftRight_eq_div_pow, Nat.and_one_is_mod]
  set mn := get_message_number r
  set t := get_turn r
  rw [show t * 2 ^ 27 / 2 ^ 31 % 2 = 0 from by omega]
  rw [show (t + 1) % 9 * 2 ^ 27 / 2 ^ 31 % 2 = 0 from by omega]
  rw [show mn * 2 ^ 21 / 2 ^ 31 % 2 = 0 from by omega]
  rw [show (mn + 1) * 2 ^ 21 / 2 ^ 31 % 2 = 0 from by omega]
  rw [show 1 * 2 ^ 26 / 2 ^ 31 % 2 = 0 from by norm_num]
  simp


/-! ### swap_player -/

theorem foldl_xor_shift (l : List Nat) (r : Nat) :
    l.foldl (fun output i => output ^^^ (1 <<< i)) r
      = r ^^^ l.foldl (fun output i => output ^^^ (1 <<< i)) 0 := by
  induction l generalizing r with
  | nil => simp
  | cons a l ih =>
    simp only [List.foldl_cons]
    rw [ih (r ^^^ 1 <<< a), ih (0 ^^^ 1 <<< a)]
    simp [Nat.xor_assoc]

theorem swap_player_eq (r : Nat) : swap_player r = r ^^^ 67109375 := by
  unfold swap_player
  rw [foldl_xor_shift, Nat.xor_assoc]
  congr 1

theorem swap_player_involution (r : Nat) : swap_player (swap_player r) = r := by
  rw [swap_player_eq, swap_player_eq, Nat.xor_assoc]
  simp

theorem swap_player_turn (r : Nat) : get_turn (swap_player r) = get_turn r := by
  rw [swap_player_eq, get_turn_eq (r ^^^ 67109375), get_turn_eq r]
  rw [← Nat.shiftRight_eq_div_pow (r ^^^ 67109375), ← Nat.and_pow_two_sub_one_eq_mod]
  rw [shiftRight_xor_distrib, Nat.and_xor_distrib_right]
  simp only [Nat.shiftRight_eq_div_pow, Nat.and_pow_two_sub_one_eq_mod]
  rw [show (67109375 : Nat) / 2 ^ 27 % 2 ^ 4 = 0 from by norm_num]
  simp

theorem swap_player_message_number (r : Nat) :
    get_message_number (swap_player r) = get_message_number r := by
  rw [swap_player_eq, get_message_number_eq (r ^^^ 67109375), get_message_number_eq r]
  rw [← Nat.shiftRight_eq_div_pow (r ^^^ 67109375), ← Nat.and_pow_two_sub_one_eq_mod]
  rw [shiftRight_xor_distrib, Nat.and_xor_distrib_right]
  simp only [Nat.shiftRight_eq_div_pow, Nat.and_pow_two_sub_one_eq_mod]
  rw [show (67109375 : Nat) / 2 ^ 21 % 2 ^ 5 = 0 from by norm_num]
  simp

theorem swap_player_p2 (r : Nat) :
    get_is_p2_turn (swap_player r) = ! get_is_p2_turn r := by
  rw [swap_player_eq, get_is_p2_turn_eq (r ^^^ 67109375), get_is_p2_turn_eq r]
  rw [← Nat.shiftRight_eq_div_pow (r ^^^ 67109375), ← Nat.and_one_is_mod]
  rw [shiftRight_xor_distrib, Nat.and_xor_distrib_right]
  simp only [Nat.shiftRight_eq_div_pow, Nat.and_one_is_mod]
  rw [show (67109375 : Nat) / 2 ^ 26 % 2 = 1 from by norm_num]
  have hp : r / 2 ^ 26 % 2 = 0 ∨ r / 2 ^ 26 % 2 = 1 := by omega
  rcases hp with hp | hp <;> rw [hp] <;> simp

theorem swap_player_board_bit (r : Nat) (i : Nat) (hi : i < 9) :
    (swap_player r).testBit i = ! r.testBit i := by
  rw [swap_player_eq, Nat.testBit_xor]
  rw [show Nat.testBit 67109375 i = true from by interval_cases i <;> decide]
  simp

theorem swap_player_message_type (r : Nat) :
    (swap_player r).testBit 31 = r.testBit 31 := by
  rw [swap_player_eq, Nat.testBit_xor]
  rw [show Nat.testBit 67109375 31 = false from by decide]
  simp

/-! ### stepN -/

theorem stepN_add (a b r : Nat) :
    stepN (a + b) r = match stepN a r with
      | Except.ok v => stepN b v
      | Except.error e => Except.error e := by
  induction a generalizing r with
  | zero => simp [stepN]
  | succ a ih =>
    rw [show a + 1 + b = (a + b) + 1 from by omega]
    cases h : increment_turn_and_message r with
    | ok r2 => simp [stepN, h, ih r2]
    | error e => simp [stepN, h]

theorem stepN_zero_ok (k : Nat) (hk : k ≤ 26) :
    ∃ v, stepN k 0 = Except.ok v ∧ get_message_number v = k := by
  induction k with
  | zero => exact ⟨0, rfl, by decide⟩
  | succ k ih =>
    obtain ⟨w, hw, hmnw⟩ := ih (by omega)
    have hlt : get_message_number w + 1 < 27 := by omega
    refine ⟨stepOutputVal w, ?_, ?_⟩
    · rw [stepN_add k 1, hw]
      show stepN 1 w = _
      show (match increment_turn_and_message w with
            | Except.ok r2 => stepN 0 r2
            | Except.error e => Except.error e) = _
      rw [increment_eq_ok w hlt]
      rfl
    · rw [stepOutputVal_message_number w hlt, hmnw]

theorem stepN_zero_err (k : Nat) (hk : 27 ≤ k) :
    stepN k 0 = Except.error overflowMsg := by
  obtain ⟨j, rfl⟩ : ∃ j, k = 27 + j := ⟨k - 27, by omega⟩
  rw [stepN_add 27 j]
  rw [show stepN 27 0 = Except.error overflowMsg from by decide]

/-! ### validate_request -/

theorem validate_request_ok_iff (r : Nat) :
    validate_request r = Except.ok () ↔
      (get_message_number r < 27 ∧ get_turn r < 9 ∧
       get_turn r ≤ get_message_number r ∧
       get_message_number r % 9 = get_turn r ∧
       (get_message_number r % 2 = 0 → get_is_p2_turn r = false) ∧
       (get_message_number r % 2 = 1 → get_is_p2_turn r = true)) := by
  unfold validate_request
  split_ifs with h1 h2 h3 h4 h5 h6 <;> simp_all


theorem validate_request_err_overflow (r : Nat) :
    validate_request r = Except.error overflowMsg ↔ 27 ≤ get_message_number r := by
  unfold validate_request
  split_ifs <;>
    simp_all [overflowMsg, turnMaxMsg, messageLessMsg, outOfSyncMsg, p2OnP1Msg, p1OnP2Msg]

theorem validate_request_err_turn (r : Nat) :
    validate_request r = Except.error turnMaxMsg ↔
      (get_message_number r < 27 ∧ 9 ≤ get_turn r) := by
  unfold validate_request
  split_ifs <;>
    simp_all [overflowMsg, turnMaxMsg, messageLessMsg, outOfSyncMsg, p2OnP1Msg, p1OnP2Msg]

theorem validate_request_err_less (r : Nat) :
    validate_request r = Except.error messageLessMsg ↔
      (get_message_number r < 27 ∧ get_turn r < 9 ∧
       get_message_number r < get_turn r) := by
  unfold validate_request
  split_ifs <;>
    simp_all [overflowMsg, turnMaxMsg, messageLessMsg, outOfSyncMsg, p2OnP1Msg, p1OnP2Msg]

theorem validate_request_err_sync (r : Nat) :
    validate_request r = Except.error outOfSyncMsg ↔
      (get_message_number r < 27 ∧ get_turn r < 9 ∧
       get_turn r ≤ get_message_number r ∧
       get_message_number r % 9 ≠ get_turn r) := by
  unfold validate_request
  split_ifs <;>
    simp_all [overflowMsg, turnMaxMsg, messageLessMsg, outOfSyncMsg, p2OnP1Msg, p1OnP2Msg]

theorem validate_request_err_p2 (r : Nat) :
    validate_request r = Except.error p2OnP1Msg ↔
      (get_message_number r < 27 ∧ get_turn r < 9 ∧
       get_turn r ≤ get_message_number r ∧
       get_message_number r % 9 = get_turn r ∧
       get_message_number r % 2 = 0 ∧ get_is_p2_turn r = true) := by
  unfold validate_request
  split_ifs <;>
    simp_all [overflowMsg, turnMaxMsg, messageLessMsg, outOfSyncMsg, p2OnP1Msg, p1OnP2Msg]

theorem validate_request_err_p1 (r : Nat) :
    validate_request r = Except.error p1OnP2Msg ↔
      (get_message_number r < 27 ∧ get_turn r < 9 ∧
       get_turn r ≤ get_message_number r ∧
       get_message_number r % 9 = get_turn r ∧
       get_message_number r % 2 = 1 ∧ get_is_p2_turn r = false) := by
  unfold validate_request
  split_ifs <;>
    simp_all [overflowMsg, turnMaxMsg, messageLessMsg, outOfSyncMsg, p2OnP1Msg, p1OnP2Msg]


/-! ### compare_boards -/

theorem compareAux_spec (a b : Fin 9 → Nat) (l : List (Fin 9)) (d : Nat) :
    compareAux a b l d = true ↔
      ((∀ i ∈ l, a i ≠ b i → a i = 0) ∧
       d + l.countP (fun i => decide (a i ≠ b i)) = 1) := by
  induction l generalizing d with
  | nil => simp [compareAux]
  | cons i rest ih =>
    by_cases h1 : a i ≠ 0 ∧ a i ≠ b i
    · simp only [compareAux, if_pos h1]
      constructor
      · intro hfalse
        exact absurd hfalse (by simp)
      · rintro ⟨hall, -⟩
        exact absurd (hall i (by simp) h1.2) h1.1
    · by_cases h2 : a i ≠ b i
      · have hz : a i = 0 := by
          by_contra hnz
          exact h1 ⟨hnz, h2⟩
        simp only [compareAux, if_pos h2, if_neg h1]
        rw [ih (d + 1)]
        rw [List.countP_cons_of_pos _ _ (by simpa using h2)]
        constructor
        · rintro ⟨hall, hcount⟩
          refine ⟨?_, by omega⟩
          intro j hj hne
          rcases List.mem_cons.mp hj with rfl | hj
          · exact hz
          · exact hall j hj hne
        · rintro ⟨hall, hcount⟩
          refine ⟨?_, by omega⟩
          intro j hj hne
          exact hall j (List.mem_cons_of_mem _ hj) hne
      · push_neg at h2
        simp only [compareAux, if_neg h1, if_neg (not_not_intro h2)]
        rw [ih d]
        rw [List.countP_cons_of_neg _ _ (by simp [h2])]
        constructor
        · rintro ⟨hall, hcount⟩
          refine ⟨?_, hcount⟩
          intro j hj hne
          rcases List.mem_cons.mp hj with rfl | hj
          · exact absurd h2 hne
          · exact hall j hj hne
        · rintro ⟨hall, hcount⟩
          refine ⟨?_, hcount⟩
          intro j hj hne
          exact hall j (List.mem_cons_of_mem _ hj) hne

theorem countP_eq_one_iff {α : Type} (l : List α) (p : α → Bool) (hn : l.Nodup) :
    l.countP p = 1 ↔ ∃ x ∈ l, p x ∧ ∀ y ∈ l, p y → y = x := by
  induction l with
  | nil => simp
  | cons a l ih =>
    have hal : a ∉ l := (List.nodup_cons.mp hn).1
    have hnl : l.Nodup := (List.nodup_cons.mp hn).2
    by_cases hp : p a
    · rw [List.countP_cons_of_pos _ _ hp]
      constructor
      · intro hc
        have hc0 : l.countP p = 0 := by omega
        have hnone : ∀ y ∈ l, ¬ p y = true := List.countP_eq_zero.mp hc0
        refine ⟨a, by simp, hp, ?_⟩
        intro y hy hpy
        rcases List.mem_cons.mp hy with rfl | hy
        · rfl
        · exact absurd hpy (hnone y hy)
      · rintro ⟨x, hx, hpx, huniq⟩
        have hax : a = x := huniq a (by simp) hp
        have hc0 : l.countP p = 0 := by
          rw [List.countP_eq_zero]
          intro y hy hpy
          have : y = x := huniq y (List.mem_cons_of_mem _ hy) hpy
          rw [this, ← hax] at hy
          exact absurd hy hal
        omega
    · rw [List.countP_cons_of_neg _ _ hp]
      rw [ih hnl]
      constructor
      · rintro ⟨x, hx, hpx, huniq⟩
        refine ⟨x, List.mem_cons_of_mem _ hx, hpx, ?_⟩
        intro y hy hpy
        rcases List.mem_cons.mp hy with rfl | hy
        · exact absurd hpy hp
        · exact huniq y hy hpy
      · rintro ⟨x, hx, hpx, huniq⟩
        rcases List.mem_cons.mp hx with rfl | hx
        · exact absurd hpx hp
        · refine ⟨x, hx, hpx, ?_⟩
          intro y hy hpy
          exact huniq y (List.mem_cons_of_mem _ hy) hpy

theorem compare_boards_iff (p n : GameState) :
    GameState.compare_boards p n = true ↔
      ∃ i : Fin 9, p.board i = 0 ∧ p.board i ≠ n.board i ∧
        ∀ j : Fin 9, p.board j ≠ n.board j → j = i := by
  unfold GameState.compare_boards
  rw [compareAux_spec]
  rw [Nat.zero_add, countP_eq_one_iff _ _ (List.nodup_finRange 9)]
  constructor
  · rintro ⟨hall, x, hx, hpx, huniq⟩
    have hdx : p.board x ≠ n.board x := by simpa using hpx
    refine ⟨x, hall x hx hdx, hdx, ?_⟩
    intro j hj
    exact huniq j (List.mem_finRange j) (by simpa using hj)
  · rintro ⟨i, hz, hd, huniq⟩
    refine ⟨?_, i, List.mem_finRange i, by simpa using hd, ?_⟩
    · intro j hj hne
      have : j = i := huniq j hne
      rw [this]
      exact hz
    · intro y hy hpy
      exact huniq y (by simpa using hpy)


/-! ### validate_turn -/

theorem player_eq_iff_get_id (p q : Player) : p = q ↔ p.get_id = q.get_id := by
  cases p
  cases q
  simp [Player.get_id]

theorem validate_turn_true_iff (prev next : GameState) :
    GameState.validate_turn prev next = Except.ok true ↔
      (next.turn = prev.turn + 1 ∧
       next.p2_turn ≠ prev.p2_turn ∧
       next.message_number = prev.message_number + 1 ∧
       next.submitted_by ≠ prev.submitted_by ∧
       (∀ ps : Player × Player, prev.players = some ps →
          next.submitted_by = ps.1 ∨ next.submitted_by = ps.2) ∧
       GameState.compare_boards prev next = true) := by
  unfold GameState.validate_turn
  split_ifs with h1 h2 h3 h4 h5 h6
  · refine iff_of_false (by simp) ?_
    rintro ⟨hc, -, -, -, -, -⟩
    exact h1 hc.symm
  · refine iff_of_false (by simp) ?_
    rintro ⟨-, hc, -, -, -, -⟩
    exact hc (beq_iff_eq.mp h2).symm
  · refine iff_of_false (by simp) ?_
    rintro ⟨-, -, hc, -, -, -⟩
    exact h3 hc.symm
  · refine iff_of_false (by simp) ?_
    rintro ⟨-, -, -, hc, -, -⟩
    exact hc ((player_eq_iff_get_id _ _).mpr h4.symm)
  · refine iff_of_false (by simp) ?_
    rintro ⟨-, -, -, -, hps, -⟩
    cases hpl : prev.players with
    | none =>
      rw [hpl] at h5
      exact Bool.noConfusion h5
    | some ps =>
      rw [hpl] at h5
      exact (of_decide_eq_true h5) (hps ps hpl)
  · refine iff_of_true rfl ⟨(not_ne_iff.mp h1).symm, ?_, (not_ne_iff.mp h3).symm, ?_, ?_, h6⟩
    · intro heq
      exact h2 (beq_iff_eq.mpr heq.symm)
    · intro heq
      exact h4 ((player_eq_iff_get_id _ _).mp heq.symm)
    · intro ps hps
      by_contra hno
      rw [hps] at h5
      exact h5 (decide_eq_true hno)
  · refine iff_of_false (by simp) ?_
    rintro ⟨-, -, -, -, -, hc⟩
    exact h6 hc

theorem validate_turn_no_error (prev next : GameState) :
    GameState.validate_turn prev next = Except.ok true ∨
      GameState.validate_turn prev next = Except.ok false := by
  unfold GameState.validate_turn
  split_ifs <;> simp


/-! ### from_request -/

theorem from_request_ok (r : Nat) (p : Player) (gs : GameState)
    (h : GameState.from_request r p = Except.ok gs) :
    validate_request r = Except.ok () ∧
    gs.message_number = get_message_number r ∧
    gs.p2_turn = get_is_p2_turn r := by
  unfold GameState.from_request at h
  cases hv : validate_request r with
  | error e =>
    rw [hv] at h
    exact Except.noConfusion h
  | ok u =>
    rw [hv] at h
    cases u
    injection h with h'
    rw [← h']
    exact ⟨rfl, rfl, rfl⟩

/-! ### Claims -/

/-- C1: `validate_turn(prev, next)` returns `Ok(true)` iff the ply is
incremented by one, the mover alternates, the message number is
incremented by one, the submitter differs from the previous submitter,
the submitter is one of the registered players when `prev.players` is
known, and `compare_boards(prev, next)` holds; any failing condition
yields `Ok(false)` and `validate_turn` never returns an `Err`. -/
theorem claim_C1_validate_turn (prev next : GameState) :
    (GameState.validate_turn prev next = Except.ok true ↔
      (next.turn = prev.turn + 1 ∧
       next.p2_turn ≠ prev.p2_turn ∧
       next.message_number = prev.message_number + 1 ∧
       next.submitted_by ≠ prev.submitted_by ∧
       (∀ ps : Player × Player, prev.players = some ps →
          next.submitted_by = ps.1 ∨ next.submitted_by = ps.2) ∧
       GameState.compare_boards prev next = true)) ∧
    (GameState.validate_turn prev next = Except.ok true ∨
     GameState.validate_turn prev next = Except.ok false) :=
  ⟨validate_turn_true_iff prev next, validate_turn_no_error prev next⟩

/-- Witness for C1: the concrete legal first move of the Rust test
`test_valid_turn` is accepted. -/
theorem claim_C1_witness :
    GameState.validate_turn
      { players := some (⟨1⟩, ⟨2⟩), submitted_by := ⟨1⟩, board := fun _ => 0,
        turn := 0, message_number := 0, p2_turn := false, request := 0 }
      { players := some (⟨1⟩, ⟨2⟩), submitted_by := ⟨2⟩,
        board := fun i => if i.val = 0 then 1 else 0,
        turn := 1, message_number := 1, p2_turn := true, request := 0 }
      = Except.ok true := by
  rw [(claim_C1_validate_turn _ _).1]
  refine ⟨rfl, by decide, rfl, by decide, ?_, by decide⟩
  intro ps hps
  injection hps with h
  rw [← h]
  right
  rfl


/-- C2: `validate_request` succeeds exactly when `message_number < 27`,
`turn < 9`, `message_number ≥ turn`, `message_number % 9 == turn` and the
parity of `message_number` agrees with `p2_turn`; the checks run in that
order and the first failing rule determines the reported error. -/
theorem claim_C2_validate_request (m : Nat) :
    (validate_request m = Except.ok () ↔
      (get_message_number m < 27 ∧ get_turn m < 9 ∧
       get_turn m ≤ get_message_number m ∧
       get_message_number m % 9 = get_turn m ∧
       (get_message_number m % 2 = 0 → get_is_p2_turn m = false) ∧
       (get_message_number m % 2 = 1 → get_is_p2_turn m = true))) ∧
    (validate_request m = Except.error overflowMsg ↔
      27 ≤ get_message_number m) ∧
    (validate_request m = Except.error turnMaxMsg ↔
      (get_message_number m < 27 ∧ 9 ≤ get_turn m)) ∧
    (validate_request m = Except.error messageLessMsg ↔
      (get_message_number m < 27 ∧ get_turn m < 9 ∧
       get_message_number m < get_turn m)) ∧
    (validate_request m = Except.error outOfSyncMsg ↔
      (get_message_number m < 27 ∧ get_turn m < 9 ∧
       get_turn m ≤ get_message_number m ∧
       get_message_number m % 9 ≠ get_turn m)) ∧
    (validate_request m = Except.error p2OnP1Msg ↔
      (get_message_number m < 27 ∧ get_turn m < 9 ∧
       get_turn m ≤ get_message_number m ∧
       get_message_number m % 9 = get_turn m ∧
       get_message_number m % 2 = 0 ∧ get_is_p2_turn m = true)) ∧
    (validate_request m = Except.error p1OnP2Msg ↔
      (get_message_number m < 27 ∧ get_turn m < 9 ∧
       get_turn m ≤ get_message_number m ∧
       get_message_number m % 9 = get_turn m ∧
       get_message_number m % 2 = 1 ∧ get_is_p2_turn m = false)) :=
  ⟨validate_request_ok_iff m, validate_request_err_overflow m,
   validate_request_err_turn m, validate_request_err_less m,
   validate_request_err_sync m, validate_request_err_p2 m,
   validate_request_err_p1 m⟩

/-- Witness for C2: the all-zero message validates. -/
theorem claim_C2_witness : validate_request 0 = Except.ok () :=
  (claim_C2_validate_request 0).1.mpr (by decide)

/-- C3: `step` (alias `increment_turn_and_message`) fails with the
overflow error exactly when the incremented message number would reach
27; otherwise it succeeds with `turn` incremented modulo 9, the message
number incremented by one and the p2-turn bit flipped.  Nine steps from
the all-zero message give turn 0 and message number 9, and repeated
stepping from the empty message fails exactly when the pre-step message
number is 26. -/
theorem claim_C3_step :
    (∀ m, increment_turn_and_message m = Except.error overflowMsg ↔
       27 ≤ get_message_number m + 1) ∧
    (∀ m, get_message_number m + 1 < 27 →
       ∃ out, increment_turn_and_message m = Except.ok out ∧
         get_turn out = (get_turn m + 1) % 9 ∧
         get_message_number out = get_message_number m + 1 ∧
         get_is_p2_turn out = ! get_is_p2_turn m) ∧
    (∃ v, stepN 9 0 = Except.ok v ∧ get_turn v = 0 ∧ get_message_number v = 9) ∧
    (∀ k, (∃ v, stepN k 0 = Except.ok v) ↔ k ≤ 26) ∧
    (∀ k v, stepN k 0 = Except.ok v →
       (increment_turn_and_message v = Except.error overflowMsg ↔
        get_message_number v = 26)) := by
  have herr : ∀ m, increment_turn_and_message m = Except.error overflowMsg ↔
      27 ≤ get_message_number m + 1 := by
    intro m
    constructor
    · intro h
      by_contra hlt
      rw [increment_eq_ok m (by omega)] at h
      exact Except.noConfusion h
    · intro h
      exact increment_eq_error m h
  have hok : ∀ k, (∃ v, stepN k 0 = Except.ok v) ↔ k ≤ 26 := by
    intro k
    constructor
    · rintro ⟨v, hv⟩
      by_contra h27
      rw [stepN_zero_err k (by omega)] at hv
      exact Except.noConfusion hv
    · intro hk
      obtain ⟨v, hv, -⟩ := stepN_zero_ok k hk
      exact ⟨v, hv⟩
  refine ⟨herr, ?_, ?_, hok, ?_⟩
  · intro m h
    exact ⟨stepOutputVal m, increment_eq_ok m h, stepOutputVal_turn m,
      stepOutputVal_message_number m h, stepOutputVal_p2 m h⟩
  · exact ⟨(9 <<< 21) ||| (1 <<< 26), by decide, by decide, by decide⟩
  · intro k v hv
    have hk : k ≤ 26 := (hok k).mp ⟨v, hv⟩
    obtain ⟨w, hw, hmnw⟩ := stepN_zero_ok k hk
    rw [hw] at hv
    injection hv with hv'
    rw [← hv', hmnw]
    rw [herr w]
    omega

/-- Witness for C3: stepping the all-zero message succeeds and updates
the three fields. -/
theorem claim_C3_witness :
    ∃ out, increment_turn_and_message 0 = Except.ok out ∧
      get_turn out = (get_turn 0 + 1) % 9 ∧
      get_message_number out = get_message_number 0 + 1 ∧
      get_is_p2_turn out = ! get_is_p2_turn 0 :=
  claim_C3_step.2.1 0 (by decide)

/-- C4: `compare_boards(prev, next)` holds iff exactly one cell differs
between the two boards and that cell was unoccupied in `prev`; a rewrite
of an occupied cell always disqualifies, and zero differences is
rejected. -/
theorem claim_C4_compare_boards (p n : GameState) :
    GameState.compare_boards p n = true ↔
      ∃ i : Fin 9, p.board i = 0 ∧ p.board i ≠ n.board i ∧
        ∀ j : Fin 9, p.board j ≠ n.board j → j = i :=
  compare_boards_iff p n

/-- Witness for C4: playing the single cell 0 on an empty board is a
valid move. -/
theorem claim_C4_witness :
    GameState.compare_boards
      { players := none, submitted_by := ⟨1⟩, board := fun _ => 0,
        turn := 0, message_number := 0, p2_turn := false, request := 0 }
      { players := none, submitted_by := ⟨2⟩,
        board := fun i => if i.val = 0 then 1 else 0,
        turn := 1, message_number := 1, p2_turn := true, request := 0 }
      = true :=
  (claim_C4_compare_boards _ _).mpr ⟨0, rfl, by decide, by decide⟩


/-- C5 counterexample: `GameState::new` builds a state with an even
message number (0) and `p2_turn = true`, so the parity invariant is not
established by every constructor. -/
theorem claim_C5_new_parity_cex :
    ¬ ((((GameState.new none none).message_number % 2 = 0 →
          (GameState.new none none).p2_turn = false)) ∧
       (((GameState.new none none).message_number % 2 = 1 →
          (GameState.new none none).p2_turn = true))) := by
  intro h
  exact Bool.noConfusion (h.1 rfl)

/-- C5 (amended): every GameState produced by `from_request` satisfies
the parity invariant, enforced by `validate_request`; `GameState::new`
does not check it and in fact violates it. -/
theorem claim_C5_from_request_parity (r : Nat) (p : Player) (gs : GameState)
    (h : GameState.from_request r p = Except.ok gs) :
    (gs.message_number % 2 = 0 → gs.p2_turn = false) ∧
    (gs.message_number % 2 = 1 → gs.p2_turn = true) := by
  obtain ⟨hval, hmn, hp2⟩ := from_request_ok r p gs h
  have hc := (validate_request_ok_iff r).mp hval
  rw [hmn, hp2]
  exact ⟨hc.2.2.2.2.1, hc.2.2.2.2.2⟩

/-- Witness for C5: decoding the all-zero message yields a state whose
parity invariant holds. -/
theorem claim_C5_witness :
    ∃ gs, GameState.from_request 0 ⟨5⟩ = Except.ok gs ∧
      ((gs.message_number % 2 = 0 → gs.p2_turn = false) ∧
       (gs.message_number % 2 = 1 → gs.p2_turn = true)) :=
  ⟨_, rfl, claim_C5_from_request_parity 0 ⟨5⟩ _ rfl⟩

/-- C6 counterexample: a word with the message-type bit set and one
garbage bit set is not recognised as an ack, so `is_ok_response` is not
determined by bit 31 alone. -/
theorem claim_C6_is_ack_cex :
    Nat.testBit 2147483649 31 = true ∧ is_ok_response 2147483649 = false := by
  constructor
  · decide
  · decide

/-- C6 (amended): `is_ok_response` holds iff the whole 32-bit word equals
exactly `1 << 31`; garbage bits outside the message-type field make it
false rather than being masked away. -/
theorem claim_C6_is_ack_exact (m : Nat) :
    is_ok_response m = true ↔ m % 2 ^ 32 = 2 ^ 31 := by
  show ((m &&& (2 ^ 32 - 1)) == 1 <<< Bits.MessageType) = true ↔ _
  rw [Nat.and_pow_two_sub_one_eq_mod, beq_decide, Nat.one_shiftLeft]
  exact decide_eq_true_iff

/-- Witness for C6: the pure ack word is recognised. -/
theorem claim_C6_witness : is_ok_response 2147483648 = true :=
  (claim_C6_is_ack_exact 2147483648).mpr (by decide)

/-- C7 counterexample: the overflow error produced by
`increment_turn_and_message` is the very same value as the error
`validate_request` reports for a message number over the ceiling, so a
caller cannot distinguish the two. -/
theorem claim_C7_error_shared_cex :
    increment_turn_and_message (26 <<< 21) = Except.error overflowMsg ∧
    validate_request (27 <<< 21) = Except.error overflowMsg := by
  constructor
  · decide
  · decide

/-- C7 (amended): the overflow error is `increment_turn_and_message`'s
only error and differs from four of `validate_request`'s five error
values, but coincides with the message-number-ceiling validation error. -/
theorem claim_C7_overflow_error (m : Nat) :
    (∀ e, increment_turn_and_message m = Except.error e → e = overflowMsg) ∧
    overflowMsg ≠ turnMaxMsg ∧
    overflowMsg ≠ messageLessMsg ∧
    overflowMsg ≠ outOfSyncMsg ∧
    overflowMsg ≠ p2OnP1Msg ∧
    overflowMsg ≠ p1OnP2Msg ∧
    (validate_request m = Except.error overflowMsg ↔
      27 ≤ get_message_number m) := by
  refine ⟨?_, by decide, by decide, by decide, by decide, by decide,
    validate_request_err_overflow m⟩
  intro e he
  by_cases h : get_message_number m + 1 < 27
  · rw [increment_eq_ok m h] at he
    exact Except.noConfusion he
  · rw [increment_eq_error m (by omega)] at he
    injection he with he'
    exact he'.symm

/-- Witness for C7: at message number 26 the step overflow error is the
message-ceiling value. -/
theorem claim_C7_witness :
    validate_request (27 <<< 21) = Except.error overflowMsg :=
  (claim_C7_overflow_error (27 <<< 21)).2.2.2.2.2.2.mpr (by decide)


/-- C8: the four extractors read exactly their bit ranges: board state
is bits [0..9), message number bits [21..26), p2-turn bit 26 and turn
bits [27..31); bits outside a field never influence its value. -/
theorem claim_C8_field_extraction (m : Nat) :
    get_board_state m = m % 2 ^ 9 ∧
    get_message_number m = m / 2 ^ 21 % 2 ^ 5 ∧
    get_is_p2_turn m = decide (m / 2 ^ 26 % 2 = 1) ∧
    get_turn m = m / 2 ^ 27 % 2 ^ 4 :=
  ⟨get_board_state_eq m, get_message_number_eq m, get_is_p2_turn_eq m,
   get_turn_eq m⟩

/-- Witness for C8: the all-ones word decodes fieldwise. -/
theorem claim_C8_witness :
    get_board_state 4294967295 = 4294967295 % 2 ^ 9 ∧
    get_message_number 4294967295 = 4294967295 / 2 ^ 21 % 2 ^ 5 ∧
    get_is_p2_turn 4294967295 = decide (4294967295 / 2 ^ 26 % 2 = 1) ∧
    get_turn 4294967295 = 4294967295 / 2 ^ 27 % 2 ^ 4 :=
  claim_C8_field_extraction 4294967295

/-- C9: `swap_player` is an involution; it flips each of the nine board
bits and the p2-turn bit while leaving turn, message number and the
message-type bit untouched. -/
theorem claim_C9_swap_view (m : Nat) :
    swap_player (swap_player m) = m ∧
    (∀ i, i < 9 → (swap_player m).testBit i = ! m.testBit i) ∧
    get_is_p2_turn (swap_player m) = ! get_is_p2_turn m ∧
    get_turn (swap_player m) = get_turn m ∧
    get_message_number (swap_player m) = get_message_number m ∧
    (swap_player m).testBit 31 = m.testBit 31 :=
  ⟨swap_player_involution m, fun i hi => swap_player_board_bit m i hi,
   swap_player_p2 m, swap_player_turn m, swap_player_message_number m,
   swap_player_message_type m⟩

/-- Witness for C9: the view swap of the all-zero word sets board cell 3. -/
theorem claim_C9_witness :
    (swap_player 0).testBit 3 = ! Nat.testBit 0 3 :=
  (claim_C9_swap_view 0).2.1 3 (by norm_num)

/-- C10: a successful step preserves the board bits [0..9), the reserved
bits [9..21) and the message-type bit 31. -/
theorem claim_C10_step_frame (m out : Nat)
    (h : increment_turn_and_message m = Except.ok out) :
    out % 2 ^ 9 = m % 2 ^ 9 ∧
    out / 2 ^ 9 % 2 ^ 12 = m / 2 ^ 9 % 2 ^ 12 ∧
    out / 2 ^ 31 % 2 = m / 2 ^ 31 % 2 := by
  have hlt : get_message_number m + 1 < 27 := by
    by_contra hge
    rw [increment_eq_error m (by omega)] at h
    exact Except.noConfusion h
  rw [increment_eq_ok m hlt] at h
  injection h with h'
  rw [← h']
  exact ⟨stepOutputVal_board m, stepOutputVal_reserved m,
    stepOutputVal_message_type m⟩

/-- Witness for C10: the step from the all-zero message leaves the board,
reserved and message-type bits at zero. -/
theorem claim_C10_witness :
    ((1 <<< 21) ||| (1 <<< 27) ||| (1 <<< 26)) % 2 ^ 9 = 0 % 2 ^ 9 ∧
    ((1 <<< 21) ||| (1 <<< 27) ||| (1 <<< 26)) / 2 ^ 9 % 2 ^ 12 = 0 / 2 ^ 9 % 2 ^ 12 ∧
    ((1 <<< 21) ||| (1 <<< 27) ||| (1 <<< 26)) / 2 ^ 31 % 2 = 0 / 2 ^ 31 % 2 :=
  claim_C10_step_frame 0 ((1 <<< 21) ||| (1 <<< 27) ||| (1 <<< 26)) (by decide)

end T3P0
